import Mathlib

/-!
Verification of the statemesh multi-chain state ingestion pipeline.

Shallow embedding of the Go sources:
- `src/internal/storage/postgres.go` (upserts, `GetAccount`),
- `src/internal/ingester/ingester.go` (polling cycle, per-module ingestion),
- `src/internal/listener/state_listener.go` (bounded event router, worker loop),
- `src/unnamed/part_002` (GraphQL resolvers: `CrossChainAccount`, `BalanceHistory`),
- `src/pkg/cosmos/client.go` (`GetLatestHeight`),
- `src/pkg/types/types.go` (record types).

Machine integers (Go `int64` heights) are modelled as `Int`; wall-clock
timestamps (`time.Time`) as an opaque `Nat` tick.  Fallible Go calls are
modelled with `Except`; external I/O (gRPC fetches, SQL row results) is
passed in as explicit parameters so every definition is executable.
-/

namespace StateMesh

/-- A balances row, `type Balance` in `src/pkg/types/types.go` (the columns
written by `UpsertBalance` in `src/internal/storage/postgres.go`; the DB-side
`created_at` default column never crosses the Go boundary and is omitted). -/
structure Balance where
  chainName : String
  address   : String
  denom     : String
  amount    : String
  height    : Int
  updatedAt : Nat
deriving Repr, DecidableEq

/-- A delegations row, `type Delegation` in `src/pkg/types/types.go`. -/
structure Delegation where
  chainName        : String
  delegatorAddress : String
  validatorAddress : String
  shares           : String
  height           : Int
  updatedAt        : Nat
deriving Repr, DecidableEq

/-- `type ValidatorDescription` in `src/pkg/types/types.go`. -/
structure ValidatorDescription where
  moniker         : String
  identity        : String
  website         : String
  securityContact : String
  details         : String
deriving Repr, DecidableEq

/-- `type ValidatorCommission` in `src/pkg/types/types.go`. -/
structure ValidatorCommission where
  rate          : String
  maxRate       : String
  maxChangeRate : String
deriving Repr, DecidableEq

/-- A validators row, `type Validator` in `src/pkg/types/types.go`. -/
structure Validator where
  chainName         : String
  operatorAddress   : String
  consensusPubkey   : String
  jailed            : Bool
  status            : String
  tokens            : String
  delegatorShares   : String
  description       : ValidatorDescription
  unbondingHeight   : Int
  unbondingTime     : Nat
  commission        : ValidatorCommission
  minSelfDelegation : String
  height            : Int
  updatedAt         : Nat
deriving Repr, DecidableEq

/-- Generic `INSERT ... ON CONFLICT (key) DO UPDATE` over a table held as a
row list: if a row with the same key exists it is updated by `upd`, otherwise
the new row is appended.  `upsertBalance` and `upsertValidator` below
instantiate it with the exact column sets of the SQL statements in
`src/internal/storage/postgres.go`. -/
def upsertBy {α κ : Type} [DecidableEq κ] (key : α → κ) (upd : α → α → α)
    (t : List α) (a : α) : List α :=
  if t.any (fun r => key r == key a) then
    t.map (fun r => if key r == key a then upd r a else r)
  else t ++ [a]

/-- Row lookup by key (first matching row). -/
def lookupBy {α κ : Type} [DecidableEq κ] (key : α → κ) (t : List α) (k : κ) :
    Option α :=
  t.find? (fun r => key r == k)

/-- Unique key of a balances row: `ON CONFLICT (chain_name, address, denom)`. -/
def balanceKey (b : Balance) : String × String × String :=
  (b.chainName, b.address, b.denom)

/-- `UpsertBalance` (`src/internal/storage/postgres.go:249-270`):
`ON CONFLICT (chain_name, address, denom) DO UPDATE SET amount, height,
updated_at` — unconditionally; the statement carries no height guard. -/
def upsertBalance (t : List Balance) (b : Balance) : List Balance :=
  upsertBy balanceKey
    (fun r b => { r with amount := b.amount, height := b.height, updatedAt := b.updatedAt })
    t b

/-- Lookup in the balances table. -/
def lookupBalance (t : List Balance) (k : String × String × String) : Option Balance :=
  lookupBy balanceKey t k

/-- Unique key of a validators row: `ON CONFLICT (chain_name, operator_address)`. -/
def validatorKey (v : Validator) : String × String :=
  (v.chainName, v.operatorAddress)

/-- `UpsertValidator` (`src/internal/storage/postgres.go:334-389`):
`ON CONFLICT (chain_name, operator_address) DO UPDATE SET` every non-key
column — again with no height guard. -/
def upsertValidator (t : List Validator) (v : Validator) : List Validator :=
  upsertBy validatorKey
    (fun r v => { r with
      consensusPubkey := v.consensusPubkey, jailed := v.jailed,
      status := v.status, tokens := v.tokens,
      delegatorShares := v.delegatorShares, description := v.description,
      unbondingHeight := v.unbondingHeight, unbondingTime := v.unbondingTime,
      commission := v.commission, minSelfDelegation := v.minSelfDelegation,
      height := v.height, updatedAt := v.updatedAt })
    t v

/-- Lookup in the validators table. -/
def lookupValidator (t : List Validator) (k : String × String) : Option Validator :=
  lookupBy validatorKey t k

section UpsertLemmas

variable {α κ : Type} [DecidableEq κ] (key : α → κ) (upd : α → α → α)

theorem find_map_upsert (hupd : ∀ r a, key r = key a → upd r a = a)
    (a : α) (t : List α) (h : t.any (fun r => key r == key a) = true) :
    (t.map (fun r => if key r == key a then upd r a else r)).find?
      (fun r => key r == key a) = some a := by
  induction t with
  | nil => simp at h
  | cons r t ih =>
    by_cases hr : key r = key a
    · have hra : upd r a = a := hupd r a hr
      have hb : (key r == key a) = true := by simp [hr]
      simp only [List.map_cons]
      rw [if_pos hb, hra]
      simp
    · have hb : (key r == key a) = false := by simp [hr]
      simp only [List.any_cons, hb, Bool.false_or] at h
      simp only [List.map_cons, hb, Bool.false_eq_true, if_false, List.find?_cons]
      exact ih h

theorem find_map_upsert_other (hupd : ∀ r a, key r = key a → upd r a = a)
    (a : α) (k : κ) (hk : k ≠ key a) (t : List α) :
    (t.map (fun r => if key r == key a then upd r a else r)).find?
      (fun r => key r == k) = t.find? (fun r => key r == k) := by
  induction t with
  | nil => simp
  | cons r t ih =>
    by_cases hr : key r = key a
    · have hra : upd r a = a := hupd r a hr
      have h1 : (key (upd r a) == k) = false := by simp [hra, Ne.symm hk]
      have h2 : (key r == k) = false := by simp [hr, Ne.symm hk]
      have hb : (key r == key a) = true := by simp [hr]
      simp only [List.map_cons, hb, if_true, List.find?_cons, h1, h2]
      exact ih
    · have hb : (key r == key a) = false := by simp [hr]
      simp only [List.map_cons, hb, Bool.false_eq_true, if_false, List.find?_cons]
      by_cases hrk : key r = k
      · have hp : (key r == k) = true := by simp [hrk]
        simp only [hp]
      · have hp : (key r == k) = false := by simp [hrk]
        simp only [hp]
        exact ih

theorem lookupBy_upsertBy_self (hupd : ∀ r a, key r = key a → upd r a = a)
    (t : List α) (a : α) :
    lookupBy key (upsertBy key upd t a) (key a) = some a := by
  unfold lookupBy upsertBy
  by_cases h : t.any (fun r => key r == key a) = true
  · rw [if_pos h]
    exact find_map_upsert key upd hupd a t h
  · rw [if_neg h]
    rw [List.find?_append]
    have hnone : t.find? (fun r => key r == key a) = none := by
      rw [List.find?_eq_none]
      intro x hx
      simp only [List.any_eq_true] at h
      simp only [beq_iff_eq]
      intro hxa
      exact h ⟨x, hx, by simp [hxa]⟩
    simp [hnone]

theorem lookupBy_upsertBy_other (hupd : ∀ r a, key r = key a → upd r a = a)
    (t : List α) (a : α) (k : κ) (hk : k ≠ key a) :
    lookupBy key (upsertBy key upd t a) k = lookupBy key t k := by
  unfold lookupBy upsertBy
  by_cases h : t.any (fun r => key r == key a) = true
  · rw [if_pos h]
    exact find_map_upsert_other key upd hupd a k hk t
  · rw [if_neg h, List.find?_append]
    have hsingle : [a].find? (fun r => key r == k) = none := by
      simp [Ne.symm hk]
    cases hfind : t.find? (fun r => key r == k) <;> simp [hsingle]

end UpsertLemmas

theorem balance_upd_total (r b : Balance) (h : balanceKey r = balanceKey b) :
    ({ r with amount := b.amount, height := b.height, updatedAt := b.updatedAt } : Balance) = b := by
  cases r; cases b
  simp only [balanceKey, Prod.mk.injEq] at h
  obtain ⟨h1, h2, h3⟩ := h
  simp_all

theorem validator_upd_total (r v : Validator) (h : validatorKey r = validatorKey v) :
    ({ r with
      consensusPubkey := v.consensusPubkey, jailed := v.jailed,
      status := v.status, tokens := v.tokens,
      delegatorShares := v.delegatorShares, description := v.description,
      unbondingHeight := v.unbondingHeight, unbondingTime := v.unbondingTime,
      commission := v.commission, minSelfDelegation := v.minSelfDelegation,
      height := v.height, updatedAt := v.updatedAt } : Validator) = v := by
  cases r; cases v
  simp only [validatorKey, Prod.mk.injEq] at h
  obtain ⟨h1, h2⟩ := h
  simp_all

/-- Balances row already stored at height 2. -/
def c1Stored : Balance :=
  { chainName := "cosmoshub", address := "addrX", denom := "uatom",
    amount := "900", height := 2, updatedAt := 0 }

/-- A later commit of the same natural key at the lower height 1. -/
def c1Stale : Balance :=
  { chainName := "cosmoshub", address := "addrX", denom := "uatom",
    amount := "500", height := 1, updatedAt := 1 }

/-- C1 counterexample: committing `(amount "500", height 1)` for a key whose
stored record is at height 2 is not a no-op — the `ON CONFLICT DO UPDATE` in
`UpsertBalance` carries no height guard, so the stored record's amount and
height change to the stale batch's values. -/
theorem upsertBalance_lower_height_overwrites_counterexample :
    lookupBalance (upsertBalance [c1Stored] c1Stale) (balanceKey c1Stale) = some c1Stale ∧
    c1Stale.height < c1Stored.height ∧
    lookupBalance [c1Stored] (balanceKey c1Stale) ≠ some c1Stale := by
  refine ⟨by decide, by decide, by decide⟩

/-- C1 as amended: `UpsertBalance` and `UpsertValidator` are unconditional
last-write-wins upserts keyed by the natural key.  Committing any record — at
a higher, equal, or lower height than what is stored — overwrites the stored
row entirely, and rows under every other key are left unchanged.  In
particular committing `h2 > h1` after `h1` overwrites, but committing `h1`
after `h2` also overwrites instead of being a no-op. -/
theorem upsert_unconditional_last_write_wins :
    ∀ (t : List Balance) (b : Balance) (tv : List Validator) (v : Validator),
      lookupBalance (upsertBalance t b) (balanceKey b) = some b ∧
      (∀ k, k ≠ balanceKey b → lookupBalance (upsertBalance t b) k = lookupBalance t k) ∧
      lookupValidator (upsertValidator tv v) (validatorKey v) = some v ∧
      (∀ k, k ≠ validatorKey v → lookupValidator (upsertValidator tv v) k = lookupValidator tv k) := by
  intro t b tv v
  exact ⟨lookupBy_upsertBy_self _ _ balance_upd_total t b,
    fun k hk => lookupBy_upsertBy_other _ _ balance_upd_total t b k hk,
    lookupBy_upsertBy_self _ _ validator_upd_total tv v,
    fun k hk => lookupBy_upsertBy_other _ _ validator_upd_total tv v k hk⟩

/-- A validators row used by concrete scenarios. -/
def demoValidator : Validator :=
  { chainName := "cosmoshub", operatorAddress := "cosmosvaloper1xyz",
    consensusPubkey := "pk", jailed := false, status := "BOND_STATUS_BONDED",
    tokens := "1000", delegatorShares := "1000.0",
    description := { moniker := "val", identity := "", website := "",
                     securityContact := "", details := "" },
    unbondingHeight := 0, unbondingTime := 0,
    commission := { rate := "0.1", maxRate := "0.2", maxChangeRate := "0.01" },
    minSelfDelegation := "1", height := 5, updatedAt := 0 }

/-- C1 witness: the amended upsert law applied at concrete inputs. -/
theorem upsert_unconditional_last_write_wins_witness :
    lookupBalance (upsertBalance [c1Stored] c1Stale) (balanceKey c1Stale) = some c1Stale ∧
    lookupBalance (upsertBalance [c1Stored] c1Stale) ("osmosis", "addrX", "uatom") =
      lookupBalance [c1Stored] ("osmosis", "addrX", "uatom") ∧
    lookupValidator (upsertValidator [] demoValidator) (validatorKey demoValidator) =
      some demoValidator ∧
    lookupValidator (upsertValidator [] demoValidator) ("osmosis", "v2") =
      lookupValidator [] ("osmosis", "v2") := by
  obtain ⟨h1, h2, h3, h4⟩ :=
    upsert_unconditional_last_write_wins [c1Stored] c1Stale [] demoValidator
  exact ⟨h1, h2 _ (by decide), h3, h4 _ (by decide)⟩

/-! GraphQL resolvers, `src/unnamed/part_002` (package graphql). -/

/-- `AccountState` as built by the `Account` resolver
(`src/unnamed/part_002:105-110`). -/
structure AccountState where
  chainName   : String
  address     : String
  balances    : List Balance
  delegations : List Delegation
deriving Repr, DecidableEq

/-- `type ChainAccountState` (`src/unnamed/part_002:57-60`). -/
structure ChainAccountState where
  chainName    : String
  accountState : AccountState
deriving Repr, DecidableEq

/-- `type DenomAmount` (`src/unnamed/part_002:69-72`). -/
structure DenomAmount where
  denom  : String
  amount : String
deriving Repr, DecidableEq

/-- `type CrossChainTotals` (`src/unnamed/part_002:62-67`).  The `float64`
field `TotalRewards` (the source adds `0.05` per delegated denom) is floating
point and not modelled; no claim mentions it. -/
structure CrossChainTotals where
  totalBalance   : List DenomAmount
  totalDelegated : List DenomAmount
  totalUnbonding : List DenomAmount
deriving Repr, DecidableEq

/-- `type CrossChainAccountState` (`src/unnamed/part_002:51-55`).  Note the
structure has fields only for the address, the per-chain states and the
totals: there is no failure-map field anywhere in the source. -/
structure CrossChainAccountState where
  address : String
  chains  : List ChainAccountState
  totals  : CrossChainTotals
deriving Repr, DecidableEq

/-- Go `map[string]string` held as an assoc list; all accesses in the source
are keyed, so iteration order never matters. -/
def mapLookup (m : List (String × String)) (k : String) : Option String :=
  (m.find? (fun p => p.1 == k)).map (·.2)

/-- Keyed assignment `m[k] = v` on a Go `map[string]string`. -/
def mapSet (m : List (String × String)) (k v : String) : List (String × String) :=
  if m.any (fun p => p.1 == k) then
    m.map (fun p => if p.1 == k then (k, v) else p)
  else m ++ [(k, v)]

/-- One iteration of the totals loops in `CrossChainAccount`
(`src/unnamed/part_002:139-156`): when the denom is already present the new
amount is string-concatenated onto the running total with a `+` separator
(the source's own `TODO: Add proper decimal arithmetic` comment marks this as
a placeholder); otherwise the amount string is assigned. -/
def addAmountToTotals (m : List (String × String)) (denom amount : String) :
    List (String × String) :=
  match mapLookup m denom with
  | some current => mapSet m denom (current ++ "+" ++ amount)
  | none => mapSet m denom amount

/-- The `Account` resolver (`src/unnamed/part_002:84-111`): reads balances
then delegations, each storage failure aborting with a wrapped error; the
two storage query results are passed in explicitly. -/
def accountResolver (address chain : String)
    (balRes : Except String (List Balance))
    (delRes : Except String (List Delegation)) : Except String AccountState :=
  match balRes with
  | .error e => .error ("failed to get balances: " ++ e)
  | .ok balances =>
    match delRes with
    | .error e => .error ("failed to get delegations: " ++ e)
    | .ok delegations =>
      .ok { chainName := chain, address := address,
            balances := balances, delegations := delegations }

/-- The hardcoded chain list of the `CrossChainAccount` resolver
(`src/unnamed/part_002:117`). -/
def resolverChains : List String := ["cosmoshub", "osmosis"]

/-- One iteration of the per-chain loop in `CrossChainAccount`
(`src/unnamed/part_002:123-157`): a failed `r.Account` read is logged and the
chain skipped with `continue`; on success the chain state is appended and its
balances and delegations folded into the two totals maps (delegations under
the hardcoded denom `"stake"`). -/
def crossChainStep (fetchAccount : String → Except String AccountState)
    (acc : List ChainAccountState × List (String × String) × List (String × String))
    (chainName : String) :
    List ChainAccountState × List (String × String) × List (String × String) :=
  match fetchAccount chainName with
  | .error _ => acc
  | .ok st =>
    (acc.1 ++ [{ chainName := chainName, accountState := st }],
     st.balances.foldl (fun m b => addAmountToTotals m b.denom b.amount) acc.2.1,
     st.delegations.foldl (fun m d => addAmountToTotals m "stake" d.shares) acc.2.2)

/-- The `CrossChainAccount` resolver (`src/unnamed/part_002:114-191`), with
the per-chain `r.Account` read supplied as `fetchAccount` and the iterated
chain list as a parameter (the source hardcodes `resolverChains`).  The Go
function's only return statement is a success with a nil error: per-chain
failures are skipped inside the loop and never surface, and the result type
carries no failure map. -/
def crossChainAccount (address : String) (chains : List String)
    (fetchAccount : String → Except String AccountState) :
    Except String CrossChainAccountState :=
  let r := chains.foldl (crossChainStep fetchAccount) ([], [], [])
  .ok { address := address, chains := r.1,
        totals := { totalBalance := r.2.1.map (fun p => { denom := p.1, amount := p.2 }),
                    totalDelegated := r.2.2.map (fun p => { denom := p.1, amount := p.2 }),
                    totalUnbonding := [] } }

/-- Per-denom total reported in a totals slice. -/
def totalFor (l : List DenomAmount) (d : String) : Option String :=
  (l.find? (fun x => x.denom == d)).map (·.amount)

/-- The `uatom` balance total of an aggregation result. -/
def uatomTotalOf (r : Except String CrossChainAccountState) : Option String :=
  match r with
  | .error _ => none
  | .ok st => totalFor st.totals.totalBalance "uatom"

/-- Balance committed by `cosmoshub` in the scenario of C2. -/
def c2BalHub : Balance :=
  { chainName := "cosmoshub", address := "addrX", denom := "uatom",
    amount := "1000000", height := 101, updatedAt := 0 }

/-- Balance committed by `osmosis` in the scenario of C2. -/
def c2BalOsmo : Balance :=
  { chainName := "osmosis", address := "addrX", denom := "uatom",
    amount := "2500000", height := 50, updatedAt := 0 }

/-- Per-chain account reads for the C2 scenario: both chains answer. -/
def c2Fetch : String → Except String AccountState := fun chainName =>
  if chainName = "cosmoshub" then
    accountResolver "addrX" "cosmoshub" (.ok [c2BalHub]) (.ok [])
  else if chainName = "osmosis" then
    accountResolver "addrX" "osmosis" (.ok [c2BalOsmo]) (.ok [])
  else .error "unknown chain"

/-- C2: aggregating balances `"1000000"` and `"2500000"` for the same denom
yields the total string `"1000000+2500000"` — the totals loop concatenates
the decimal strings with a `+` separator instead of summing them, so the
spec-required total `"3500000"` is never produced. -/
theorem crossChainAccount_concatenates_amounts :
    uatomTotalOf (crossChainAccount "addrX" resolverChains c2Fetch) =
      some "1000000+2500000" ∧
    ("1000000+2500000" : String) ≠ "3500000" :=
  ⟨by decide, by decide⟩

/-- C6: the computed totals depend on the order of the chain list — the two
permutations of the same two chains yield the distinct concatenations
`"1000000+2500000"` and `"2500000+1000000"`, so cross-chain aggregation is
not order-independent in the code. -/
theorem crossChainAccount_order_dependent :
    uatomTotalOf (crossChainAccount "addrX" ["cosmoshub", "osmosis"] c2Fetch) =
      some "1000000+2500000" ∧
    uatomTotalOf (crossChainAccount "addrX" ["osmosis", "cosmoshub"] c2Fetch) =
      some "2500000+1000000" ∧
    uatomTotalOf (crossChainAccount "addrX" ["cosmoshub", "osmosis"] c2Fetch) ≠
      uatomTotalOf (crossChainAccount "addrX" ["osmosis", "cosmoshub"] c2Fetch) :=
  ⟨by decide, by decide, by decide⟩

/-- Per-chain account reads with zero reachable chains. -/
def c4NoChainFetch : String → Except String AccountState :=
  fun _ => .error "connection refused"

/-- Per-chain account reads with exactly one reachable chain. -/
def c4OneChainFetch : String → Except String AccountState := fun chainName =>
  if chainName = "cosmoshub" then
    accountResolver "addrX" "cosmoshub" (.ok [c2BalHub]) (.ok [])
  else .error "connection refused"

/-- C4: with zero reachable chains the resolver still returns success (an
empty state with a nil error) instead of failing, and with one unreachable
chain the failure is recorded nowhere — the returned structure has no
failure-map field, so the unreachable chain is silently indistinguishable
from a chain with no data. -/
theorem crossChainAccount_succeeds_with_zero_reachable_chains :
    crossChainAccount "addrX" resolverChains c4NoChainFetch =
      .ok { address := "addrX", chains := [],
            totals := { totalBalance := [], totalDelegated := [], totalUnbonding := [] } } ∧
    crossChainAccount "addrX" resolverChains c4OneChainFetch =
      .ok { address := "addrX",
            chains := [{ chainName := "cosmoshub",
                         accountState := { chainName := "cosmoshub", address := "addrX",
                                           balances := [c2BalHub], delegations := [] } }],
            totals := { totalBalance := [{ denom := "uatom", amount := "1000000" }],
                        totalDelegated := [], totalUnbonding := [] } } :=
  ⟨rfl, rfl⟩

/-! Polling ingester, `src/internal/ingester/ingester.go`, and the chain
client's `GetLatestHeight`, `src/pkg/cosmos/client.go`. -/

/-- A staking validator as returned by the chain client's `GetValidators`:
the fields read by `ingestStakingModule`
(`src/internal/ingester/ingester.go:344-370`); SDK decimal and enum values
appear through their `.String()` views. -/
structure SrcValidator where
  operatorAddress   : String
  consensusPubkey   : String
  jailed            : Bool
  status            : String
  tokens            : String
  delegatorShares   : String
  description       : ValidatorDescription
  unbondingHeight   : Int
  unbondingTime     : Nat
  commission        : ValidatorCommission
  minSelfDelegation : String
deriving Repr, DecidableEq

/-- The row built from a fetched validator in `ingestStakingModule`
(`src/internal/ingester/ingester.go:345-370`): every committed row carries
the cycle height and the shared `now` timestamp. -/
def toValidatorRow (chain : String) (now : Nat) (height : Int) (v : SrcValidator) :
    Validator :=
  { chainName := chain, operatorAddress := v.operatorAddress,
    consensusPubkey := v.consensusPubkey, jailed := v.jailed, status := v.status,
    tokens := v.tokens, delegatorShares := v.delegatorShares,
    description := v.description, unbondingHeight := v.unbondingHeight,
    unbondingTime := v.unbondingTime, commission := v.commission,
    minSelfDelegation := v.minSelfDelegation, height := height, updatedAt := now }

/-- The canonical-store tables touched by the embedded code paths. -/
structure Store where
  balances   : List Balance
  validators : List Validator
deriving Repr, DecidableEq

/-- The empty store. -/
def emptyStore : Store := { balances := [], validators := [] }

/-- The total-supply coin observed by `ingestBankModule` (only logged). -/
structure SupplyCoin where
  denom  : String
  amount : Int
deriving Repr, DecidableEq

/-- A governance proposal as observed by `ingestGovernanceModule` (only its
count is logged). -/
structure GovProposal where
  proposalId : Nat
deriving Repr, DecidableEq

/-- The chain client responses consumed during one polling cycle, passed in
explicitly: `GetValidators` (used by both `GetLatestHeight` and the staking
module), `GetTotalSupply` (bank) and `GetProposals` (governance). -/
structure ChainEnv where
  validatorsRes : Except String (List SrcValidator)
  supplyRes     : Except String SupplyCoin
  proposalsRes  : Except String (List GovProposal)
deriving Repr

/-- `GetLatestHeight` (`src/pkg/cosmos/client.go:350-364`): fetches the
validator set and returns the FIRST validator's `UnbondingHeight` as a proxy
for the latest block height (the source comment says so verbatim); an empty
validator set is an error. -/
def getLatestHeight (validatorsRes : Except String (List SrcValidator)) :
    Except String Int :=
  match validatorsRes with
  | .error e => .error ("failed to get latest height: " ++ e)
  | .ok [] => .error "no validators found"
  | .ok (v :: _) => .ok v.unbondingHeight

/-- `ingestBankModule` (`src/internal/ingester/ingester.go:308-324`): fetches
the total supply and only logs it; a fetch failure fails the module. -/
def ingestBankModule (env : ChainEnv) : Except String Unit :=
  match env.supplyRes with
  | .error e => .error ("failed to get total supply: " ++ e)
  | .ok _ => .ok ()

/-- `ingestStakingModule` (`src/internal/ingester/ingester.go:327-387`): on a
fetch failure its own transaction is rolled back and the store is unchanged;
on success every fetched validator is upserted at the cycle height and the
module commits its own transaction before returning — independently of the
rest of the polling cycle. -/
def ingestStakingModule (env : ChainEnv) (chain : String) (now : Nat)
    (height : Int) (s : Store) : Except String Store :=
  match env.validatorsRes with
  | .error e => .error ("failed to get validators: " ++ e)
  | .ok vals =>
    let committed := vals.foldl
      (fun t v => upsertValidator t (toValidatorRow chain now height v)) s.validators
    .ok { s with validators := committed }

/-- `ingestGovernanceModule` (`src/internal/ingester/ingester.go:398-410`):
fetches the proposals and only logs their count; a fetch failure fails the
module. -/
def ingestGovernanceModule (env : ChainEnv) : Except String Unit :=
  match env.proposalsRes with
  | .error e => .error ("failed to get proposals: " ++ e)
  | .ok _ => .ok ()

/-- Dispatch of one module inside the cycle loop
(`src/internal/ingester/ingester.go:248-297`); the distribution, mint and
slashing handlers only log, and an unknown module name is a debug-logged
no-op. -/
def ingestModule (env : ChainEnv) (chain : String) (now : Nat) (height : Int)
    (s : Store) : String → Except String Store
  | "bank" => (ingestBankModule env).map (fun _ => s)
  | "staking" => ingestStakingModule env chain now height s
  | "distribution" => .ok s
  | "governance" => (ingestGovernanceModule env).map (fun _ => s)
  | "mint" => .ok s
  | "slashing" => .ok s
  | _ => .ok s

/-- The module loop of `ingestChainState`: the first failing module makes the
function return its error immediately — later modules never run, while store
changes already committed by earlier modules (inside their own transactions)
remain in place. -/
def runModules (env : ChainEnv) (chain : String) (now : Nat) (height : Int) :
    List String → Store → Except String Unit × Store
  | [], s => (.ok (), s)
  | m :: ms, s =>
    match ingestModule env chain now height s m with
    | .error e => (.error e, s)
    | .ok t => runModules env chain now height ms t

/-- `ingestChainState` (`src/internal/ingester/ingester.go:231-305`):
resolves the cycle height via `GetLatestHeight`, then runs the enabled
modules in order.  The outer transaction it opens (lines 241-245) and
commits (line 300) carries no writes — every record write happens inside
`ingestStakingModule`'s own already-committed transaction — so it adds
nothing to the state transition; no chain cursor is written anywhere in the
cycle. -/
def ingestChainState (env : ChainEnv) (chain : String) (now : Nat)
    (modules : List String) (s : Store) : Except String Unit × Store :=
  match getLatestHeight env.validatorsRes with
  | .error e => (.error ("failed to get latest height: " ++ e), s)
  | .ok height => runModules env chain now height modules s

/-- A fetched validator used in concrete polling scenarios. -/
def c3SrcValidator : SrcValidator :=
  { operatorAddress := "cosmosvaloper1xyz", consensusPubkey := "pk",
    jailed := false, status := "BOND_STATUS_BONDED", tokens := "1000",
    delegatorShares := "1000.0",
    description := { moniker := "val", identity := "", website := "",
                     securityContact := "", details := "" },
    unbondingHeight := 120, unbondingTime := 0,
    commission := { rate := "0.1", maxRate := "0.2", maxChangeRate := "0.01" },
    minSelfDelegation := "1" }

/-- A cycle in which staking succeeds but the governance fetch fails. -/
def c3Env : ChainEnv :=
  { validatorsRes := .ok [c3SrcValidator],
    supplyRes := .ok { denom := "uatom", amount := 1 },
    proposalsRes := .error "rpc error: context deadline exceeded" }

/-- C3: a polling cycle with modules `[staking, governance]` in which the
governance fetch fails returns an error, yet the validator committed by the
staking module earlier in the same cycle REMAINS in the store — the batch is
not all-or-nothing, because `ingestStakingModule` commits its own
transaction while the cycle's outer transaction carries no writes. -/
theorem ingestChainState_partial_commit_on_module_failure :
    (ingestChainState c3Env "cosmoshub" 7 ["staking", "governance"] emptyStore).2 =
      { balances := [],
        validators := [toValidatorRow "cosmoshub" 7 120 c3SrcValidator] } ∧
    (ingestChainState c3Env "cosmoshub" 7 ["staking", "governance"] emptyStore).1 =
      .error "failed to get proposals: rpc error: context deadline exceeded" ∧
    (ingestChainState c3Env "cosmoshub" 7 ["staking", "governance"] emptyStore).2 ≠
      emptyStore :=
  ⟨by decide, rfl, by decide⟩

/-- C7 counterexample: in the polling cycle an error in one module aborts
the whole batch — with modules `[governance, staking]` the failing
governance fetch makes the cycle return before the staking module runs, so
the valid validator record available in the same cycle is never committed
and the store is left unchanged, contradicting the claim that remaining
valid records are still committed. -/
theorem ingestChainState_module_error_aborts_cycle_counterexample :
    (ingestChainState c3Env "cosmoshub" 7 ["governance", "staking"] emptyStore).2 =
      emptyStore ∧
    (ingestChainState c3Env "cosmoshub" 7 ["governance", "staking"] emptyStore).1 =
      .error "failed to get proposals: rpc error: context deadline exceeded" :=
  ⟨by decide, rfl⟩

/-- C9: `GetLatestHeight` does not query the chain's latest block height: it
returns the `UnbondingHeight` of the FIRST fetched validator, errors when the
validator set is empty (and passes the client error through otherwise), and
`ingestChainState` uses exactly this proxy value as the cycle height, which
`toValidatorRow` stamps onto every committed record. -/
theorem getLatestHeight_unbonding_height_proxy :
    (∀ (v : SrcValidator) (vs : List SrcValidator),
      getLatestHeight (.ok (v :: vs)) = .ok v.unbondingHeight) ∧
    getLatestHeight (.ok []) = .error "no validators found" ∧
    (∀ e, getLatestHeight (.error e) = .error ("failed to get latest height: " ++ e)) ∧
    (∀ (env : ChainEnv) (chain : String) (now : Nat) (modules : List String)
       (s : Store) (v : SrcValidator) (vs : List SrcValidator),
      env.validatorsRes = .ok (v :: vs) →
      ingestChainState env chain now modules s =
        runModules env chain now v.unbondingHeight modules s) ∧
    (∀ (chain : String) (now : Nat) (height : Int) (v : SrcValidator),
      (toValidatorRow chain now height v).height = height) := by
  refine ⟨fun v vs => rfl, rfl, fun e => rfl, ?_, fun chain now height v => rfl⟩
  intro env chain now modules s v vs h
  simp [ingestChainState, getLatestHeight, h]

/-- C9 witness: the proxy-height law applied to the concrete cycle
environment. -/
theorem getLatestHeight_unbonding_height_proxy_witness :
    ingestChainState c3Env "cosmoshub" 7 ["staking"] emptyStore =
      runModules c3Env "cosmoshub" 7 c3SrcValidator.unbondingHeight ["staking"]
        emptyStore :=
  getLatestHeight_unbonding_height_proxy.2.2.2.1 c3Env "cosmoshub" 7 ["staking"]
    emptyStore c3SrcValidator [] rfl

/-! ADR-038 state listener, `src/internal/listener/state_listener.go`. -/

/-- `type StateChange` (`src/internal/listener/state_listener.go:37-45`);
the raw `[]byte` key and value are modelled as character lists. -/
structure StateChange where
  chainName  : String
  storeKey   : String
  key        : List Char
  value      : List Char
  deleteFlag : Bool
  height     : Int
  timestamp  : Nat
deriving Repr, DecidableEq

/-- Capacity of the shared `stateChanges` channel
(`src/internal/listener/state_listener.go:72`). -/
def stateChangesCapacity : Nat := 10000

/-- The non-blocking send at the heart of `OnStateChange`
(`src/internal/listener/state_listener.go:142-151`): a `select` that
enqueues when the channel has room and otherwise hits the `default` branch,
which only logs a warning — the incoming change is dropped.  The boolean
records which branch ran (`true` = enqueued, `false` = warning logged). -/
def enqueueChange (q : List StateChange) (c : StateChange) :
    List StateChange × Bool :=
  if q.length < stateChangesCapacity then (q ++ [c], true) else (q, false)

/-- `OnStateChange` (`src/internal/listener/state_listener.go:131-152`):
builds the `StateChange` record and performs the non-blocking send.  The Go
function returns nothing to the producer, and the listener state holds no
dropped counter. -/
def onStateChange (q : List StateChange) (chainName storeKey : String)
    (key value : List Char) (deleteFlag : Bool) (height : Int) (now : Nat) :
    List StateChange × Bool :=
  enqueueChange q
    { chainName := chainName, storeKey := storeKey, key := key, value := value,
      deleteFlag := deleteFlag, height := height, timestamp := now }

/-- Modelled from the spec: the router state that claim C5 talks about — a
queue together with a per-chain dropped counter.  No such counter exists in
`src/internal/listener/state_listener.go`; this definition follows the
claim's words so the code's behaviour can be compared with it. -/
structure SpecRouterState where
  queue   : List StateChange
  dropped : Nat
deriving Repr, DecidableEq

/-- Modelled from the spec: `Enqueue` exactly as the claim describes it — on
a full queue it drops the incoming event, increments the dropped counter and
returns `false`. -/
def enqueueSpec (st : SpecRouterState) (c : StateChange) :
    SpecRouterState × Bool :=
  if st.queue.length < stateChangesCapacity then
    ({ queue := st.queue ++ [c], dropped := st.dropped }, true)
  else
    ({ queue := st.queue, dropped := st.dropped + 1 }, false)

/-- The code's transition lifted to the claim's state: `OnStateChange`
touches only the channel, so the counter component never changes. -/
def enqueueCode (st : SpecRouterState) (c : StateChange) :
    SpecRouterState × Bool :=
  ({ queue := (enqueueChange st.queue c).1, dropped := st.dropped },
   (enqueueChange st.queue c).2)

/-- A change used in concrete router scenarios. -/
def demoChange : StateChange :=
  { chainName := "cosmoshub", storeKey := "bank", key := [], value := [],
    deleteFlag := false, height := 10, timestamp := 0 }

/-- A full shared channel. -/
def fullQueue : List StateChange :=
  List.replicate stateChangesCapacity demoChange

/-- C5 counterexample: enqueueing into a full queue does drop the incoming
event, but the code increments no dropped counter — lifted to the claim's
router state the code's transition leaves the counter at 0 where the claim
requires it to become 1 (the `default` branch of the `select` only logs a
warning, and `OnStateChange` returns nothing to the producer). -/
theorem onStateChange_no_dropped_counter_counterexample :
    (enqueueCode { queue := fullQueue, dropped := 0 } demoChange).1.dropped = 0 ∧
    (enqueueSpec { queue := fullQueue, dropped := 0 } demoChange).1.dropped = 1 ∧
    (enqueueCode { queue := fullQueue, dropped := 0 } demoChange).1.dropped ≠
      (enqueueSpec { queue := fullQueue, dropped := 0 } demoChange).1.dropped := by
  have hfull : ¬ (fullQueue.length < stateChangesCapacity) := by
    simp [fullQueue]
  refine ⟨by simp [enqueueCode, enqueueChange, hfull], by simp [enqueueSpec, hfull], ?_⟩
  simp [enqueueCode, enqueueSpec, enqueueChange, hfull]

/-- Events accepted one by one into the shared channel. -/
def enqueueAll (q : List StateChange) (es : List StateChange) :
    List StateChange :=
  es.foldl (fun t c => (enqueueChange t c).1) q

theorem enqueueAll_append (es : List StateChange) :
    ∀ q : List StateChange, q.length + es.length ≤ stateChangesCapacity →
      enqueueAll q es = q ++ es := by
  induction es with
  | nil => intro q _; simp [enqueueAll]
  | cons c es ih =>
    intro q h
    have hq : q.length < stateChangesCapacity := by
      simp only [List.length_cons] at h; omega
    have step : enqueueChange q c = (q ++ [c], true) := by
      simp [enqueueChange, hq]
    have : enqueueAll q (c :: es) = enqueueAll (q ++ [c]) es := by
      simp [enqueueAll, step]
    rw [this, ih (q ++ [c]) (by
      simp only [List.length_append, List.length_cons, List.length_nil] at h ⊢; omega)]
    simp

/-- C5 as amended: `OnStateChange` on a full queue drops the incoming event
and leaves the queue's contents and size unchanged, but it only logs a
warning — there is no per-chain dropped counter to increment and the Go
function returns no value to the producer; below capacity the event is
appended, and since a Go channel is consumed from the front, events accepted
into an emptied channel are drained in exactly their acceptance (FIFO)
order. -/
theorem onStateChange_drop_newest_fifo :
    (∀ (q : List StateChange) (chainName storeKey : String) (key value : List Char)
       (deleteFlag : Bool) (height : Int) (now : Nat),
      stateChangesCapacity ≤ q.length →
      onStateChange q chainName storeKey key value deleteFlag height now = (q, false)) ∧
    (∀ (q : List StateChange) (c : StateChange),
      q.length < stateChangesCapacity → enqueueChange q c = (q ++ [c], true)) ∧
    (∀ es : List StateChange, es.length ≤ stateChangesCapacity →
      enqueueAll [] es = es) := by
  refine ⟨?_, ?_, ?_⟩
  · intro q chainName storeKey key value deleteFlag height now h
    simp [onStateChange, enqueueChange, Nat.not_lt.mpr h]
  · intro q c h
    simp [enqueueChange, h]
  · intro es h
    simpa using enqueueAll_append es [] (by simpa using h)

/-- C5 witness: the amended router laws applied at concrete queues. -/
theorem onStateChange_drop_newest_fifo_witness :
    onStateChange fullQueue "cosmoshub" "bank" [] [] false 10 0 = (fullQueue, false) ∧
    enqueueChange [] demoChange = ([demoChange], true) ∧
    enqueueAll [] [demoChange, demoChange] = [demoChange, demoChange] := by
  refine ⟨onStateChange_drop_newest_fifo.1 fullQueue "cosmoshub" "bank" [] [] false 10 0
      (by simp [fullQueue]),
    onStateChange_drop_newest_fifo.2.1 [] demoChange (by simp [stateChangesCapacity]),
    onStateChange_drop_newest_fifo.2.2 [demoChange, demoChange]
      (by simp [stateChangesCapacity])⟩

/-- `processBalanceChange` (`src/internal/listener/state_listener.go:278-335`):
the key parser is stubbed in the source — `parts := []string{}` with a
`TODO: Parse key properly` — so the `len(parts) < 2` guard rejects every
balance change with `invalid balance key format`; the upsert below the guard
is unreachable but still modelled faithfully. -/
def processBalanceChange (s : Store) (c : StateChange)
    ( _keyRemainder : List Char) : Except String Store :=
  let parts : List (List Char) := []
  match parts with
  | address :: denom :: _ =>
    let amount := if c.deleteFlag then "0" else String.mk c.value
    let b : Balance :=
      { chainName := c.chainName, address := String.mk address,
        denom := String.mk denom, amount := amount, height := c.height,
        updatedAt := c.timestamp }
    .ok { s with balances := upsertBalance s.balances b }
  | _ => .error "invalid balance key format"

/-- `processBankStateChange` (`src/internal/listener/state_listener.go:261-275`):
dispatch on the `balances/` or `supply/` key prefix; a supply change is only
debug-logged, and any other key is ignored. -/
def processBankStateChange (s : Store) (c : StateChange) : Except String Store :=
  if c.key.length > 9 ∧ c.key.take 9 = "balances/".toList then
    processBalanceChange s c (c.key.drop 9)
  else if c.key.length > 7 ∧ c.key.take 7 = "supply/".toList then
    .ok s
  else .ok s

/-- `processStateChange` (`src/internal/listener/state_listener.go:232-258`):
dispatch on the store key.  The staking, distribution, governance, mint and
slashing handlers (and unknown store keys) only debug-log and return nil;
only the bank handler can touch the store or fail. -/
def processStateChange (s : Store) (c : StateChange) : Except String Store :=
  match c.storeKey with
  | "bank" => processBankStateChange s c
  | "staking" => .ok s
  | "distribution" => .ok s
  | "gov" => .ok s
  | "mint" => .ok s
  | "slashing" => .ok s
  | _ => .ok s

/-- The worker loop `ListenerWorker.start`
(`src/internal/listener/state_listener.go:208-229`): each queued change is
processed in turn; a processing error is logged and the loop continues with
the next change — nothing is counted and the loop never aborts. -/
def processChangeList (s : Store) : List StateChange → Store
  | [] => s
  | c :: cs =>
    match processStateChange s c with
    | .error _ => processChangeList s cs
    | .ok t => processChangeList t cs

/-- C7 as amended: in the push-listener path a balance change (whose key
parsing is stubbed) fails with `invalid balance key format`; the failing
change is skipped with only a logged error — no error counter exists — and
all remaining changes of the batch are still processed against an unchanged
store.  In the polling path, by contrast, a failing module aborts the rest
of the cycle (see the counterexample). -/
theorem listener_skips_failing_change :
    ∀ (s : Store) (c : StateChange) (rest : List StateChange) (rem : List Char),
      c.storeKey = "bank" → c.key = "balances/".toList ++ rem → rem ≠ [] →
      processStateChange s c = .error "invalid balance key format" ∧
      processChangeList s (c :: rest) = processChangeList s rest := by
  intro s c rest rem hstore hkey hrem
  have h9 : ("balances/".toList).length = 9 := by decide
  have hlen : c.key.length > 9 := by
    rw [hkey, List.length_append, h9]
    have := List.length_pos.mpr hrem
    omega
  have htake : c.key.take 9 = "balances/".toList := by
    rw [hkey, ← h9, List.take_left]
  have h1 : processStateChange s c = .error "invalid balance key format" := by
    simp [processStateChange, hstore, processBankStateChange, hlen, htake,
      processBalanceChange]
  exact ⟨h1, by simp [processChangeList, h1]⟩

/-- A malformed (indeed, any) balance change observed by the listener. -/
def c7BadChange : StateChange :=
  { chainName := "cosmoshub", storeKey := "bank", key := "balances/x".toList,
    value := "42".toList, deleteFlag := false, height := 11, timestamp := 0 }

/-- C7 witness: the skip-and-continue law applied to a concrete change. -/
theorem listener_skips_failing_change_witness :
    processStateChange emptyStore c7BadChange = .error "invalid balance key format" ∧
    processChangeList emptyStore [c7BadChange] = processChangeList emptyStore [] :=
  listener_skips_failing_change emptyStore c7BadChange [] ("x".toList) rfl
    (by decide) (by decide)

/-! `BalanceHistory` resolver (`src/unnamed/part_002:336-358`) and
`GetAccount` (`src/internal/storage/postgres.go:65-88`). -/

/-- `type BalanceEvent` (`src/pkg/types/types.go:166-176`). -/
structure BalanceEvent where
  timestamp      : Nat
  chainName      : String
  address        : String
  denom          : String
  amount         : String
  previousAmount : String
  changeType     : String
  height         : Int
  txHash         : String
deriving Repr, DecidableEq

/-- Outcome of a Go call that may also crash: a returned value, a returned
error, or a runtime panic from a nil-pointer dereference. -/
inductive GoOutcome (α : Type) where
  | ok (a : α)
  | fail (e : String)
  | nilDeref
deriving Repr, DecidableEq

/-- The `BalanceHistory` resolver (`src/unnamed/part_002:336-358`): after the
ClickHouse-availability check and the nil-guarded limit default, line 346
evaluates `*denom` with no nil check — with an absent denom that is a
nil-pointer dereference, a runtime panic.  The ClickHouse query itself is
passed in as `query` (address, denom, then the hardcoded chain `"cosmos"`,
then the limit — the resolver ignores its own chain argument). -/
def balanceHistory (clickhouseAvailable : Bool) (address : String)
    ( _chain : String) (denom : Option String) (lim : Option Int)
    (query : String → String → String → Int → Except String (List BalanceEvent)) :
    GoOutcome (List BalanceEvent) :=
  if clickhouseAvailable = false then
    .fail "ClickHouse not available for analytics queries"
  else
    let limitVal : Int :=
      match lim with
      | some v => if v > 0 then v else 100
      | none => 100
    match denom with
    | none => .nilDeref
    | some d =>
      match query address d "cosmos" limitVal with
      | .error e => .fail ("failed to get balance history: " ++ e)
      | .ok events => .ok events

/-- C8: calling `BalanceHistory` with the optional denom absent dereferences
a nil pointer and panics instead of returning an error (whenever ClickHouse
is configured so that the earlier guard does not return first); with a denom
supplied the call never panics, so the panic is reachable exactly when a
caller omits the denom. -/
theorem balanceHistory_nil_denom_panics :
    (∀ (address chain : String) (lim : Option Int)
       (query : String → String → String → Int → Except String (List BalanceEvent)),
      balanceHistory true address chain none lim query = .nilDeref) ∧
    (∀ (address chain : String) (lim : Option Int)
       (query : String → String → String → Int → Except String (List BalanceEvent)),
      balanceHistory false address chain none lim query =
        .fail "ClickHouse not available for analytics queries") ∧
    (∀ (address chain d : String) (lim : Option Int)
       (query : String → String → String → Int → Except String (List BalanceEvent)),
      balanceHistory true address chain (some d) lim query ≠ .nilDeref) := by
  refine ⟨fun a c l q => rfl, fun a c l q => rfl, fun a c d l q => ?_⟩
  simp only [balanceHistory]
  cases q a d "cosmos" (match l with | some v => if v > 0 then v else 100 | none => 100) <;>
    simp

/-- `type Account` (`src/pkg/types/types.go:8-13`). -/
structure Account where
  chainName : String
  address   : String
  createdAt : Nat
  updatedAt : Nat
deriving Repr, DecidableEq

/-- Result of a `QueryRowContext(...).Scan(...)`: a scanned row, the
`sql.ErrNoRows` sentinel, or another driver error. -/
inductive RowResult (α : Type) where
  | row (a : α)
  | noRows
  | fail (e : String)
deriving Repr, DecidableEq

/-- `GetAccount` (`src/internal/storage/postgres.go:65-88`): the
`sql.ErrNoRows` sentinel is translated to `(nil, nil)` — absence with a nil
error — while any other scan error is wrapped and returned as a non-nil
error; only a scanned row yields a non-nil account. -/
def getAccount (res : RowResult Account) : Except String (Option Account) :=
  match res with
  | .noRows => .ok none
  | .fail e => .error ("failed to get account: " ++ e)
  | .row a => .ok (some a)

/-- C10: `GetAccount` distinguishes absence from failure — a missing row
yields a nil account together with a nil error, an underlying query failure
yields an error, and a found row yields the account; these three cases cover
every possible query outcome, so an error is returned only on an underlying
query failure. -/
theorem getAccount_absence_vs_failure :
    getAccount (.noRows : RowResult Account) = .ok none ∧
    (∀ e, getAccount (.fail e : RowResult Account) =
      .error ("failed to get account: " ++ e)) ∧
    (∀ a, getAccount (.row a) = .ok (some a)) :=
  ⟨rfl, fun _ => rfl, fun _ => rfl⟩

end StateMesh
